import Mathlib

/-!
A verification development for the process-execution / interrupt-isolation
layer declared in `src/libutil/util.hh` (the `nix` namespace).

The header contains the bodies of `checkInterrupt`, `string2Int`,
`string2IntWithUnitPrefix`, the member-initializer defaults of `Pid`, and
the `ReceiveInterrupts` constructor; those are embedded directly from the
source.  Functions whose bodies live in the (absent) `util.cc` are modelled
from the specification, with a doc comment saying so on each definition.
-/

namespace NixUtil

/-! ## Interrupt subsystem: `checkInterrupt` and the process-wide flag -/

/-- The state read by `checkInterrupt`: the process-wide flag
`std::atomic<bool> _isInterrupted` and the thread-local
`std::function<bool()> interruptCheck`.  A `std::function` is either empty
(its `bool` conversion is `false`) or holds a predicate; we record the
presence of the predicate together with the value it returns, so
`interruptCheck && interruptCheck()` becomes a test on an `Option Bool`. -/
structure InterruptState where
  isInterrupted : Bool
  interruptCheck : Option Bool
deriving DecidableEq, Repr

/-- The single failure kind relevant here: the `Interrupted` error class. -/
inductive InterruptError where
  | interrupted
deriving DecidableEq, Repr

/-- Modelled from the spec: `_interrupted()`'s body is in the absent
`util.cc`; the spec says the probe "raises an Interrupted failure", so the
call is modelled as raising `Interrupted`. -/
def interruptedRaise : Except InterruptError Unit :=
  Except.error InterruptError.interrupted

/-- Embedded from the header (util.hh:348-352):
`if (_isInterrupted || (interruptCheck && interruptCheck())) _interrupted();` -/
def checkInterrupt (st : InterruptState) : Except InterruptError Unit :=
  if st.isInterrupted || (st.interruptCheck.isSome && st.interruptCheck.getD false) then
    interruptedRaise
  else
    Except.ok ()

/-! ## Interrupt flag monotonicity (C2)

Modelled from the spec: `triggerInterrupt()`'s body is in the absent
`util.cc`.  The spec: "a single shared boolean, set once and never cleared
within a process's lifetime"; triggering sets it, signal delivery sets it
(the listener "sets the process-wide flag"), and `checkInterrupt` only
reads it. -/

/-- The operations touching the process-wide interrupt flag. -/
inductive InterruptOp where
  | sigDeliver
  | trigger
  | check
deriving DecidableEq, Repr

/-- Modelled from the spec: effect of one operation on the process-wide
flag.  Signal delivery and `triggerInterrupt()` set it; `checkInterrupt()`
only reads it. -/
def interruptStep (flag : Bool) : InterruptOp → Bool
  | InterruptOp.sigDeliver => true
  | InterruptOp.trigger => true
  | InterruptOp.check => flag

/-- The flag after a sequence of operations. -/
def interruptRun (flag : Bool) (ops : List InterruptOp) : Bool :=
  ops.foldl interruptStep flag

/-! ## Integer parsing: `string2Int` and `string2IntWithUnitPrefix`

Both templates have their bodies in the header.  The template parameter `N`
(a C++ integer type) is embedded as a signedness flag plus a bit width;
values of `N` are integers in the representable range, and arithmetic in
`N` is two's-complement reduction `wrap`. -/

/-- A C++ integer type: signedness and bit width, standing for the template
parameter `N` of `string2Int<N>` / `string2IntWithUnitPrefix<N>`. -/
structure CIntTy where
  signed : Bool
  width : Nat
deriving DecidableEq, Repr

/-- Smallest representable value of the type. -/
def CIntTy.minVal (t : CIntTy) : Int :=
  if t.signed then -(2 ^ (t.width - 1)) else 0

/-- Largest representable value of the type. -/
def CIntTy.maxVal (t : CIntTy) : Int :=
  if t.signed then 2 ^ (t.width - 1) - 1 else 2 ^ t.width - 1

/-- Two's-complement reduction of an integer into the type's range: the
result of C++ modular conversion/arithmetic at this width. -/
def CIntTy.wrap (t : CIntTy) (n : Int) : Int :=
  let m := n % (2 ^ t.width : Int)
  if t.signed ∧ (2 ^ (t.width - 1) : Int) ≤ m then m - 2 ^ t.width else m

/-- The whitespace characters skipped by `istream` formatted extraction in
the `"C"` locale (`isspace`). -/
def isSpaceC (c : Char) : Bool :=
  c = ' ' || c = '\t' || c = '\n' || c = '\x0b' || c = '\x0c' || c = '\r'

/-- Numeric value of a decimal digit string (most significant first). -/
def digitsToNat (ds : List Char) : Nat :=
  ds.foldl (fun a c => 10 * a + (c.toNat - '0'.toNat)) 0

/-- Formatted extraction `str >> n` for an integer type, followed by where
the stream is left: skip leading whitespace, an optional single sign, then
a nonempty run of decimal digits.  Overflow sets `failbit` (C++11), which
makes `string2Int`'s `if (str ...)` test fail, so it is modelled as `none`;
for unsigned types the conversion is `strtoull`-like: the digit magnitude
must fit and a leading minus negates modulo `2 ^ width`. -/
def istreamExtractInt (t : CIntTy) (s : List Char) : Option (Int × List Char) :=
  let s1 := s.dropWhile isSpaceC
  let signAndRest : Bool × List Char :=
    match s1 with
    | '-' :: rest => (true, rest)
    | '+' :: rest => (false, rest)
    | _ => (false, s1)
  let neg := signAndRest.1
  let s2 := signAndRest.2
  let ds := s2.takeWhile Char.isDigit
  let rest := s2.dropWhile Char.isDigit
  if ds = [] then none
  else
    let mag : Int := (digitsToNat ds : Int)
    if t.signed then
      let v := if neg then -mag else mag
      if v < t.minVal ∨ t.maxVal < v then none else some (v, rest)
    else
      if t.maxVal < mag then none
      else some (t.wrap (if neg then -mag else mag), rest)

/-- Embedded from the header (util.hh:413-423): reject a leading `'-'` for
unsigned `N` up front, otherwise extract with `istringstream` and require
that the stream is good and the next `get()` hits end of input. -/
def string2Int (t : CIntTy) (s : List Char) : Option Int :=
  if s.head? = some '-' ∧ t.signed = false then none
  else
    match istreamExtractInt t s with
    | some (n, rest) => if rest = [] then some n else none
    | none => none

/-- `std::toupper` in the `"C"` locale, on ASCII. -/
def toupperC (c : Char) : Char :=
  if 'a' ≤ c ∧ c ≤ 'z' then Char.ofNat (c.toNat - 32) else c

/-- `std::isalpha` in the `"C"` locale, on ASCII. -/
def isalphaC (c : Char) : Bool :=
  ('A' ≤ c && c ≤ 'Z') || ('a' ≤ c && c ≤ 'z')

/-- The binary-unit exponent of an (uppercased) suffix character. -/
def unitExp (u : Char) : Option Nat :=
  if u = 'K' then some 10
  else if u = 'M' then some 20
  else if u = 'G' then some 30
  else if u = 'T' then some 40
  else none

/-- The multiplier the source selects (`1ULL << 10` … `1ULL << 40`). -/
def unitMultiplier (u : Char) : Option Nat :=
  (unitExp u).map (fun k => 2 ^ k)

/-- The `UsageError` exceptions thrown by `string2IntWithUnitPrefix`. -/
inductive UsageError where
  | invalidUnitSpecifier (c : Char)
  | notAnInteger
deriving DecidableEq, Repr

/-- Embedded from the header (util.hh:427-445).  If the string is nonempty
and its last character uppercases to a letter, it must be one of
`K`/`M`/`G`/`T` (else `UsageError`); the corresponding multiplier is
converted to `N` (modular, hence the inner `wrap`) and the remaining string
is parsed with `string2Int`, whose result is multiplied in `N`. -/
def string2IntWithUnitPrefix (t : CIntTy) (s : List Char) : Except UsageError Int :=
  match s.getLast? with
  | some u0 =>
    let u := toupperC u0
    if isalphaC u then
      match unitMultiplier u with
      | some mult =>
        match string2Int t s.dropLast with
        | some n => Except.ok (t.wrap (n * t.wrap (mult : Int)))
        | none => Except.error UsageError.notAnInteger
      | none => Except.error (UsageError.invalidUnitSpecifier u)
    else
      match string2Int t s with
      | some n => Except.ok (t.wrap (n * 1))
      | none => Except.error UsageError.notAnInteger
  | none =>
    match string2Int t s with
    | some n => Except.ok (t.wrap (n * 1))
    | none => Except.error UsageError.notAnInteger

/-- The claim's "malformed suffix": the trailing character is alphabetic
but, case-insensitively, not one of `K`/`M`/`G`/`T`. -/
def badSuffix (s : List Char) : Bool :=
  match s.getLast? with
  | some u0 => isalphaC (toupperC u0) && (unitMultiplier (toupperC u0)).isNone
  | none => false

/-- The string remaining after stripping a valid unit suffix (the string
itself when there is none). -/
def stripUnit (s : List Char) : List Char :=
  match s.getLast? with
  | some u0 =>
    if isalphaC (toupperC u0) && (unitMultiplier (toupperC u0)).isSome then s.dropLast else s
  | none => s

/-- The exponent of the multiplier applied: 10/20/30/40 for a valid
`K`/`M`/`G`/`T` suffix, 0 otherwise. -/
def suffixExp (s : List Char) : Nat :=
  match s.getLast? with
  | some u0 => (unitExp (toupperC u0)).getD 0
  | none => 0

/-- Whether a call raised `UsageError` (the error branch of the result). -/
def isUsageError : Except UsageError Int → Bool
  | Except.error _ => true
  | Except.ok _ => false

/-! ## External program runner (C3)

`runProgram(RunOptions &&)`'s body is in the absent `util.cc`; it is
modelled from the spec sentence: "fails with an execution error carrying
the child's exit status when the child terminates with a non-zero/abnormal
status, and with an I/O error if stream setup fails". -/

/-- Embedded from the header (util.hh:277-290): the fields of `RunOptions`.
The `Source * standardIn` / `Sink * standardOut` pointers are embedded as
presence flags (a non-null pointer). -/
structure RunOptions where
  program : List Char
  searchPath : Bool := true
  args : List (List Char) := []
  uid : Option Nat := none
  gid : Option Nat := none
  chdir : Option (List Char) := none
  environment : Option (List (List Char × List Char)) := none
  input : Option (List Char) := none
  standardIn : Bool := false
  standardOut : Bool := false
  mergeStderrToStdout : Bool := false

/-- How one concrete execution behaves, as observed by the runner: either
setting up the standard-stream plumbing fails, or the child runs to
termination with an OS wait status (0 exactly when it exited normally with
code 0) and some captured standard output. -/
inductive ChildOutcome where
  | setupFailure
  | terminated (status : Int) (output : List Char)
deriving DecidableEq, Repr

/-- The failures `runProgram` can raise: `ExecError` carrying the child's
exit status (util.hh:314-323), or an I/O error from stream setup. -/
inductive RunError where
  | execError (status : Int)
  | ioError
deriving DecidableEq, Repr

/-- Modelled from the spec: `runProgram(RunOptions &&)` (util.hh:292).
Stream-setup failure raises an I/O error; a child terminating with a
non-zero (abnormal) wait status raises `ExecError` carrying that status;
otherwise the exit status and the captured standard output are returned. -/
def runProgram (opts : RunOptions) (outcome : ChildOutcome) :
    Except RunError (Int × List Char) :=
  match outcome with
  | ChildOutcome.setupFailure => Except.error RunError.ioError
  | ChildOutcome.terminated status output =>
    if status ≠ 0 then Except.error (RunError.execError status)
    else Except.ok (status, output)

/-! ## AutoCloseFD lifecycle (C4)

The bodies of `AutoCloseFD`'s members are in the absent `util.cc`; the
lifecycle is modelled from the spec: "`release()` transfers ownership to
the caller and disarms destruction-time cleanup; assigning a new raw value
to an already-owning handle first performs the owned cleanup of the old
value", and destruction closes an owned valid descriptor. -/

/-- The operations performed on one live `AutoCloseFD` between its
construction and its destruction. -/
inductive FDOp where
  | assign (newFd : Int)
  | release
  | close
deriving DecidableEq, Repr

/-- One handle's state: the descriptor value it currently holds (`none`
standing for the sentinel `-1`, "no resource held"), together with the
trace of descriptors it has closed. -/
structure FDState where
  owned : Option Int
  closed : List Int
deriving DecidableEq, Repr

/-- Modelled from the spec: `close()` — if the handle holds a valid
descriptor, close it (recording the close) and mark the handle empty. -/
def fdClose (s : FDState) : FDState :=
  match s.owned with
  | some fd =>
    if fd ≠ -1 then { owned := none, closed := s.closed ++ [fd] }
    else { s with owned := none }
  | none => s

/-- Modelled from the spec: one operation on the handle.  Assigning first
performs the owned cleanup of the old value, then holds the new one;
`release()` transfers ownership out without closing; `close()` as above. -/
def fdStep (s : FDState) : FDOp → FDState
  | FDOp.assign newFd => { fdClose s with owned := some newFd }
  | FDOp.release => { s with owned := none }
  | FDOp.close => fdClose s

/-- The handle's state after a sequence of operations. -/
def fdRun (s : FDState) (ops : List FDOp) : FDState :=
  ops.foldl fdStep s

/-- A complete lifecycle: construct owning descriptor `d`, perform `ops`,
then destroy (the destructor performs the owned cleanup, i.e. `close()`). -/
def fdLifecycle (d : Int) (ops : List FDOp) : FDState :=
  fdClose (fdRun { owned := some d, closed := [] } ops)

/-! ## Move-only ownership across many handles (C5)

The public interface of `AutoCloseFD` (util.hh:188-203) has construction
from a raw descriptor, move construction, move assignment, `release()`,
`close()` and destruction; copy construction and copy assignment are
deleted (util.hh:194,197), so the operation language below has no copy.
Move semantics are modelled from the spec ("move-only ownership; copying
is forbidden to prevent double-close"): a move transfers the descriptor
and leaves the source holding the sentinel `-1`. -/

/-- Handle identities; a heap maps each to `none` (not constructed, or
destroyed) or `some fd` (a live handle whose field holds `fd`). -/
abbrev HandleId := Nat

/-- The public operations of `AutoCloseFD`; there is no copy operation. -/
inductive HandleOp where
  | construct (h : HandleId) (fd : Int)
  | moveConstruct (dst src : HandleId)
  | moveAssign (dst src : HandleId)
  | release (h : HandleId)
  | close (h : HandleId)
  | destroy (h : HandleId)
deriving DecidableEq, Repr

/-- Modelled from the spec: small-step semantics of the public interface.
`construct` wraps a raw descriptor handed out by the OS, so a valid (`≠
-1`) descriptor enters ownership only while no live handle owns it; a move
leaves its source holding `-1`; `release`/`close` leave the handle holding
`-1`; `destroy` removes the handle. -/
inductive HandleStep : (HandleId → Option Int) → HandleOp → (HandleId → Option Int) → Prop where
  | construct {σ h fd} : σ h = none → (fd = -1 ∨ ∀ h', σ h' ≠ some fd) →
      HandleStep σ (HandleOp.construct h fd) (Function.update σ h (some fd))
  | moveConstruct {σ dst src x} : σ dst = none → σ src = some x → dst ≠ src →
      HandleStep σ (HandleOp.moveConstruct dst src)
        (Function.update (Function.update σ src (some (-1))) dst (some x))
  | moveAssign {σ dst src x y} : σ dst = some y → σ src = some x → dst ≠ src →
      HandleStep σ (HandleOp.moveAssign dst src)
        (Function.update (Function.update σ src (some (-1))) dst (some x))
  | release {σ h x} : σ h = some x →
      HandleStep σ (HandleOp.release h) (Function.update σ h (some (-1)))
  | close {σ h x} : σ h = some x →
      HandleStep σ (HandleOp.close h) (Function.update σ h (some (-1)))
  | destroy {σ h x} : σ h = some x →
      HandleStep σ (HandleOp.destroy h) (Function.update σ h none)

/-- Heaps reachable from the initial heap (no handles) by programs over the
public interface. -/
inductive HandleReachable : (HandleId → Option Int) → Prop where
  | init : HandleReachable (fun _ => none)
  | step {σ op σ'} : HandleReachable σ → HandleStep σ op σ' → HandleReachable σ'

/-- No two live handles own the same valid descriptor. -/
def UniqueOwnership (σ : HandleId → Option Int) : Prop :=
  ∀ h1 h2 d, h1 ≠ h2 → σ h1 = some d → σ h2 = some d → d = -1

/-! ## Mount namespace snapshot/restore (C6)

`saveMountNamespace` / `restoreMountNamespace` (util.hh:305-311) have
their bodies in the absent `util.cc`; both are modelled from the spec:
the first save durably records the namespace active at that moment and
later saves are no-ops; restore re-enters the recorded namespace if one
exists and otherwise is a no-op that never fails (it is a total function
on states). -/

/-- The process state seen by the namespace manager: the mount namespace
the process is currently in, and the snapshot slot. -/
structure MountNsState where
  current : Nat
  savedNs : Option Nat
deriving DecidableEq, Repr

/-- Modelled from the spec: `saveMountNamespace()` — "Save the current
mount namespace. Ignored if called more than once." (util.hh:305-307). -/
def saveMountNamespace (s : MountNsState) : MountNsState :=
  match s.savedNs with
  | some _ => s
  | none => { s with savedNs := some s.current }

/-- Modelled from the spec: `restoreMountNamespace()` — "Restore the mount
namespace saved by saveMountNamespace(). Ignored if saveMountNamespace()
was never called." (util.hh:309-311). -/
def restoreMountNamespace (s : MountNsState) : MountNsState :=
  match s.savedNs with
  | some n => { s with current := n }
  | none => s

/-! ## Child process handles (C7)

The member-initializer defaults of `Pid` are in the header
(util.hh:235-237); `kill()`'s body is in the absent `util.cc` and its
signal delivery is modelled from the spec ("target signal used to
terminate it", sent to the child's own process group when it has one). -/

/-- `SIGKILL` is signal number 9. -/
def SIGKILL : Int := 9

/-- Embedded from the header (util.hh:233-237): `pid_t pid = -1; bool
separatePG = false; int killSignal = SIGKILL;`. -/
structure Pid where
  pid : Int := -1
  separatePG : Bool := false
  killSignal : Int := SIGKILL
deriving DecidableEq, Repr

/-- The default-constructed handle `Pid()` (util.hh:239): the member
initializers apply. -/
def Pid.defaultPid : Pid := {}

/-- Modelled from the spec: the signal delivery `kill()` performs — the
configured kill signal, sent to the whole process group (`-pid`) when the
child was moved into its own, else to the child's pid. -/
def Pid.kill (p : Pid) : Int × Int :=
  (if p.separatePG then -p.pid else p.pid, p.killSignal)

/-! ## ReceiveInterrupts and the callback registry (C9)

The `ReceiveInterrupts` constructor is in the header (util.hh:573-576);
`createInterruptCallback` and the listener's callback pass are in the
absent `util.cc` and are modelled from the spec: registration returns a
handle whose drop unregisters, and on SIGINT the listener sets the flag
and invokes every registered callback in registration order. -/

abbrev ThreadId := Nat

/-- `SIGUSR1` is signal number 10 (Linux). -/
def SIGUSR1 : Int := 10

/-- The action a registered callback performs when invoked; the
`ReceiveInterrupts` callback is `pthread_kill(target, SIGUSR1)`. -/
inductive CallbackAction where
  | signalThread (target : ThreadId) (signal : Int)
deriving DecidableEq, Repr

/-- The signal a callback's invocation delivers. -/
def CallbackAction.delivery : CallbackAction → ThreadId × Int
  | CallbackAction.signalThread t sig => (t, sig)

/-- The interrupt subsystem: fresh registration ids, the registry in
registration order, the process-wide flag, and the log of thread-directed
signals delivered by callback invocations. -/
structure InterruptSubsystem where
  nextId : Nat
  callbacks : List (Nat × CallbackAction)
  flag : Bool
  delivered : List (ThreadId × Int)
deriving DecidableEq, Repr

/-- Modelled from the spec: `createInterruptCallback(fn)` appends `fn` to
the registry and returns the registration handle's id. -/
def createInterruptCallback (a : CallbackAction) (s : InterruptSubsystem) :
    Nat × InterruptSubsystem :=
  (s.nextId,
    { s with nextId := s.nextId + 1, callbacks := s.callbacks ++ [(s.nextId, a)] })

/-- Modelled from the spec: dropping the registration handle unregisters
the callback. -/
def dropInterruptCallback (id : Nat) (s : InterruptSubsystem) : InterruptSubsystem :=
  { s with callbacks := s.callbacks.filter (fun c => c.1 != id) }

/-- Invoking one callback delivers its signal. -/
def invokeCallback (s : InterruptSubsystem) (a : CallbackAction) : InterruptSubsystem :=
  { s with delivered := s.delivered ++ [a.delivery] }

/-- Modelled from the spec: on receiving SIGINT the listener thread sets
the process-wide flag and invokes every registered callback in
registration order. -/
def onSIGINT (s : InterruptSubsystem) : InterruptSubsystem :=
  (s.callbacks.map Prod.snd).foldl invokeCallback { s with flag := true }

/-- Embedded from the header (util.hh:573-576): constructing
`ReceiveInterrupts` on thread `t` registers a callback that signals `t`
with SIGUSR1. -/
def receiveInterruptsConstruct (t : ThreadId) (s : InterruptSubsystem) :
    Nat × InterruptSubsystem :=
  createInterruptCallback (CallbackAction.signalThread t SIGUSR1) s

/-- Destroying `ReceiveInterrupts` drops the owned registration handle
(util.hh:571), which unregisters the callback. -/
def receiveInterruptsDestroy (id : Nat) (s : InterruptSubsystem) : InterruptSubsystem :=
  dropInterruptCallback id s

/-! ## Lemmas about two's-complement reduction -/

theorem CIntTy.wrap_emod (t : CIntTy) (x : Int) :
    t.wrap x % (2 ^ t.width : Int) = x % (2 ^ t.width : Int) := by
  unfold CIntTy.wrap
  dsimp only
  split
  · rw [Int.sub_emod, Int.emod_self, sub_zero, Int.emod_emod_of_dvd _ dvd_rfl,
      Int.emod_emod_of_dvd _ dvd_rfl]
  · exact Int.emod_emod_of_dvd _ dvd_rfl

theorem CIntTy.wrap_congr (t : CIntTy) {x y : Int}
    (h : x % (2 ^ t.width : Int) = y % (2 ^ t.width : Int)) : t.wrap x = t.wrap y := by
  unfold CIntTy.wrap
  rw [h]

theorem CIntTy.wrap_mul_wrap (t : CIntTy) (a b : Int) :
    t.wrap (a * t.wrap b) = t.wrap (a * b) :=
  t.wrap_congr (by rw [Int.mul_emod, t.wrap_emod, ← Int.mul_emod])

theorem unitExp_eq_none_of_not_alpha {u : Char} (h : isalphaC u = false) :
    unitExp u = none := by
  by_cases hK : u = 'K'
  · subst hK; exact absurd h (by decide)
  by_cases hM : u = 'M'
  · subst hM; exact absurd h (by decide)
  by_cases hG : u = 'G'
  · subst hG; exact absurd h (by decide)
  by_cases hT : u = 'T'
  · subst hT; exact absurd h (by decide)
  simp [unitExp, hK, hM, hG, hT]

/-! ## Helper lemmas for the AutoCloseFD lifecycle -/

theorem fdClose_of_not_owned (d : Int) (s : FDState) (h : s.owned ≠ some d) :
    (fdClose s).closed.count d = s.closed.count d ∧ (fdClose s).owned ≠ some d := by
  cases hs : s.owned with
  | none => simp [fdClose, hs]
  | some fd =>
    have hfd : fd ≠ d := fun he => h (he ▸ hs)
    simp only [fdClose, hs]
    split
    · simp [List.count_append, List.count_eq_zero, Ne.symm hfd]
    · simp

theorem fdRun_of_not_owned (d : Int) (ops : List FDOp) :
    ∀ s : FDState, s.owned ≠ some d → FDOp.assign d ∉ ops →
      (fdRun s ops).closed.count d = s.closed.count d ∧ (fdRun s ops).owned ≠ some d := by
  induction ops with
  | nil => exact fun s h _ => ⟨rfl, h⟩
  | cons op rest ih =>
    intro s h hmem
    have hmem' : FDOp.assign d ∉ rest := fun hc => hmem (List.mem_cons_of_mem _ hc)
    have hstep : (fdStep s op).closed.count d = s.closed.count d ∧
        (fdStep s op).owned ≠ some d := by
      cases op with
      | assign newFd =>
        have hne : newFd ≠ d := by
          intro he
          subst he
          exact hmem (List.mem_cons_self _ _)
        exact ⟨(fdClose_of_not_owned d s h).1, by simp [fdStep, hne]⟩
      | release => exact ⟨rfl, by simp [fdStep]⟩
      | close => exact fdClose_of_not_owned d s h
    have hrest := ih (fdStep s op) hstep.2 hmem'
    exact ⟨hrest.1.trans hstep.1, hrest.2⟩

theorem fdLifecycle_count_no_release (d : Int) (hd : d ≠ -1) :
    ∀ ops : List FDOp, FDOp.release ∉ ops → FDOp.assign d ∉ ops →
    ∀ cl : List Int,
      (fdClose (fdRun { owned := some d, closed := cl } ops)).closed.count d =
        cl.count d + 1 := by
  intro ops
  induction ops with
  | nil =>
    intro _ _ cl
    simp [fdRun, fdClose, hd, List.count_append]
  | cons op rest ih =>
    intro hrel hass cl
    have hrel' : FDOp.release ∉ rest := fun hc => hrel (List.mem_cons_of_mem _ hc)
    have hass' : FDOp.assign d ∉ rest := fun hc => hass (List.mem_cons_of_mem _ hc)
    cases op with
    | release => exact absurd (List.mem_cons_self _ _) hrel
    | close =>
      have hstep : fdStep { owned := some d, closed := cl } FDOp.close =
          { owned := none, closed := cl ++ [d] } := by
        simp [fdStep, fdClose, hd]
      have hrun := fdRun_of_not_owned d rest { owned := none, closed := cl ++ [d] }
        (by simp) hass'
      have hfin := fdClose_of_not_owned d _ hrun.2
      calc (fdClose (fdRun { owned := some d, closed := cl } (FDOp.close :: rest))).closed.count d
          = (fdRun { owned := none, closed := cl ++ [d] } rest).closed.count d := by
            rw [show fdRun { owned := some d, closed := cl } (FDOp.close :: rest) =
              fdRun (fdStep { owned := some d, closed := cl } FDOp.close) rest from rfl, hstep]
            exact hfin.1
        _ = (cl ++ [d]).count d := hrun.1
        _ = cl.count d + 1 := by simp [List.count_append]
    | assign newFd =>
      have hne : newFd ≠ d := by
        intro he
        subst he
        exact hass (List.mem_cons_self _ _)
      have hstep : fdStep { owned := some d, closed := cl } (FDOp.assign newFd) =
          { owned := some newFd, closed := cl ++ [d] } := by
        simp [fdStep, fdClose, hd]
      have hrun := fdRun_of_not_owned d rest { owned := some newFd, closed := cl ++ [d] }
        (by simp [hne]) hass'
      have hfin := fdClose_of_not_owned d _ hrun.2
      calc (fdClose (fdRun { owned := some d, closed := cl }
              (FDOp.assign newFd :: rest))).closed.count d
          = (fdRun { owned := some newFd, closed := cl ++ [d] } rest).closed.count d := by
            rw [show fdRun { owned := some d, closed := cl } (FDOp.assign newFd :: rest) =
              fdRun (fdStep { owned := some d, closed := cl } (FDOp.assign newFd)) rest from rfl,
              hstep]
            exact hfin.1
        _ = (cl ++ [d]).count d := hrun.1
        _ = cl.count d + 1 := by simp [List.count_append]

/-! ## Helper lemma for the interrupt-callback pass -/

theorem invokeFold_delivered (acts : List CallbackAction) :
    ∀ s0 : InterruptSubsystem,
      (acts.foldl invokeCallback s0).delivered =
        s0.delivered ++ acts.map CallbackAction.delivery := by
  induction acts with
  | nil => intro s0; simp
  | cons a rest ih =>
    intro s0
    rw [List.foldl_cons, ih]
    simp [invokeCallback]

/-! ## Helper lemmas for move-only ownership -/

theorem uniqueOwnership_construct (σ : HandleId → Option Int) (h : HandleId) (fd : Int)
    (hfresh : fd = -1 ∨ ∀ h', σ h' ≠ some fd) (ih : UniqueOwnership σ) :
    UniqueOwnership (Function.update σ h (some fd)) := by
  intro h1 h2 d hne e1 e2
  rw [Function.update_apply] at e1 e2
  by_cases h1h : h1 = h
  · rw [if_pos h1h] at e1
    by_cases h2h : h2 = h
    · exact absurd (h1h.trans h2h.symm) hne
    · rw [if_neg h2h] at e2
      obtain rfl : fd = d := Option.some.inj e1
      rcases hfresh with rfl | hfresh
      · rfl
      · exact absurd e2 (hfresh h2)
  · rw [if_neg h1h] at e1
    by_cases h2h : h2 = h
    · rw [if_pos h2h] at e2
      obtain rfl : fd = d := Option.some.inj e2
      rcases hfresh with rfl | hfresh
      · rfl
      · exact absurd e1 (hfresh h1)
    · rw [if_neg h2h] at e2
      exact ih h1 h2 d hne e1 e2

theorem uniqueOwnership_move (σ : HandleId → Option Int) (dst src : HandleId) (x : Int)
    (hsrc : σ src = some x) (ih : UniqueOwnership σ) :
    UniqueOwnership (Function.update (Function.update σ src (some (-1))) dst (some x)) := by
  intro h1 h2 d hne e1 e2
  rw [Function.update_apply] at e1 e2
  by_cases h1d : h1 = dst
  · rw [if_pos h1d] at e1
    obtain rfl : x = d := Option.some.inj e1
    by_cases h2d : h2 = dst
    · exact absurd (h1d.trans h2d.symm) hne
    · rw [if_neg h2d, Function.update_apply] at e2
      by_cases h2s : h2 = src
      · rw [if_pos h2s] at e2
        exact (Option.some.inj e2).symm
      · rw [if_neg h2s] at e2
        exact ih src h2 x (fun he => h2s he.symm) hsrc e2
  · rw [if_neg h1d, Function.update_apply] at e1
    by_cases h1s : h1 = src
    · rw [if_pos h1s] at e1
      exact (Option.some.inj e1).symm
    · rw [if_neg h1s] at e1
      by_cases h2d : h2 = dst
      · rw [if_pos h2d] at e2
        obtain rfl : x = d := Option.some.inj e2
        exact ih h1 src x (fun he => h1s he) e1 hsrc
      · rw [if_neg h2d, Function.update_apply] at e2
        by_cases h2s : h2 = src
        · rw [if_pos h2s] at e2
          exact (Option.some.inj e2).symm
        · rw [if_neg h2s] at e2
          exact ih h1 h2 d hne e1 e2

theorem uniqueOwnership_sentinel (σ : HandleId → Option Int) (h : HandleId)
    (ih : UniqueOwnership σ) :
    UniqueOwnership (Function.update σ h (some (-1))) := by
  intro h1 h2 d hne e1 e2
  rw [Function.update_apply] at e1 e2
  by_cases h1h : h1 = h
  · rw [if_pos h1h] at e1
    exact (Option.some.inj e1).symm
  · rw [if_neg h1h] at e1
    by_cases h2h : h2 = h
    · rw [if_pos h2h] at e2
      exact (Option.some.inj e2).symm
    · rw [if_neg h2h] at e2
      exact ih h1 h2 d hne e1 e2

theorem uniqueOwnership_erase (σ : HandleId → Option Int) (h : HandleId)
    (ih : UniqueOwnership σ) :
    UniqueOwnership (Function.update σ h none) := by
  intro h1 h2 d hne e1 e2
  rw [Function.update_apply] at e1 e2
  by_cases h1h : h1 = h
  · rw [if_pos h1h] at e1
    exact absurd e1 (by simp)
  · rw [if_neg h1h] at e1
    by_cases h2h : h2 = h
    · rw [if_pos h2h] at e2
      exact absurd e2 (by simp)
    · rw [if_neg h2h] at e2
      exact ih h1 h2 d hne e1 e2

/-! ## Helper lemmas for the mount-namespace manager -/

theorem restore_restore (s : MountNsState) :
    restoreMountNamespace (restoreMountNamespace s) = restoreMountNamespace s := by
  cases hs : s.savedNs with
  | none => simp [restoreMountNamespace, hs]
  | some n => simp [restoreMountNamespace, hs]

theorem restore_iterate_succ (s : MountNsState) (N : Nat) :
    restoreMountNamespace^[N + 1] s = restoreMountNamespace s := by
  induction N with
  | zero => simp
  | succ n ihn => rw [Function.iterate_succ_apply', ihn, restore_restore]

/-! ## Claim theorems -/

/-- Claim C1: `checkInterrupt()` returns normally if and only if the
process-wide flag `_isInterrupted` is unset and the thread-local
`interruptCheck` predicate is absent or returns false; otherwise it raises
an `Interrupted` failure. -/
theorem checkInterrupt_spec (st : InterruptState) :
    (checkInterrupt st = Except.ok () ↔
      (st.isInterrupted = false ∧
        (st.interruptCheck = none ∨ st.interruptCheck = some false))) ∧
    (checkInterrupt st = Except.error InterruptError.interrupted ↔
      ¬(st.isInterrupted = false ∧
        (st.interruptCheck = none ∨ st.interruptCheck = some false))) := by
  obtain ⟨b, oc⟩ := st
  cases b <;> rcases oc with _ | b2 <;> try cases b2
  all_goals simp [checkInterrupt, interruptedRaise]

/-- Claim C2: the process-wide interrupt flag is monotone and one-shot:
once set it stays set over any sequence of signal deliveries,
`triggerInterrupt()` calls and `checkInterrupt()` calls, and triggering
when it is already set leaves the state unchanged. -/
theorem interruptFlag_monotone :
    (∀ ops : List InterruptOp, interruptRun true ops = true) ∧
    interruptStep true InterruptOp.trigger = true := by
  refine ⟨?_, rfl⟩
  intro ops
  induction ops with
  | nil => rfl
  | cons op rest ih => cases op <;> simpa [interruptRun, interruptStep] using ih

/-- Claim C3: `runProgram(RunOptions)` raises an I/O error when stream
setup fails, raises `ExecError` carrying the child's exit status when the
child terminates with a non-zero/abnormal status, and on success returns
the pair of the exit status and the captured standard output. -/
theorem runProgram_spec (opts : RunOptions) (status : Int) (output : List Char) :
    runProgram opts ChildOutcome.setupFailure = Except.error RunError.ioError ∧
    (status ≠ 0 → runProgram opts (ChildOutcome.terminated status output) =
      Except.error (RunError.execError status)) ∧
    runProgram opts (ChildOutcome.terminated 0 output) = Except.ok (0, output) := by
  refine ⟨rfl, ?_, by simp [runProgram]⟩
  intro h
  simp [runProgram, h]

/-- Witness for C3 at a concrete failing status. -/
theorem runProgram_spec_witness :
    ((1 : Int) ≠ 0) ∧
    runProgram { program := ['p'] } (ChildOutcome.terminated 1 []) =
      Except.error (RunError.execError 1) :=
  ⟨by decide, (runProgram_spec { program := ['p'] } 1 []).2.1 (by decide)⟩

/-- Claim C4: over any lifecycle of one `AutoCloseFD` constructed owning a
valid descriptor `d` (with `d` handed to the handle only once), if the
descriptor is never released then it is closed exactly once, and no close
of `d` ever happens after a `release()`. -/
theorem autoCloseFD_close_once (d : Int) (ops : List FDOp)
    (hd : d ≠ -1) (hassign : FDOp.assign d ∉ ops) :
    (FDOp.release ∉ ops → (fdLifecycle d ops).closed.count d = 1) ∧
    (∀ ops1 ops2, ops = ops1 ++ FDOp.release :: ops2 →
      (fdLifecycle d ops).closed.count d =
        (fdRun { owned := some d, closed := [] } ops1).closed.count d) := by
  constructor
  · intro hrel
    simpa using fdLifecycle_count_no_release d hd ops hrel hassign []
  · rintro ops1 ops2 rfl
    have hass2 : FDOp.assign d ∉ ops2 := by
      intro hc
      exact hassign (List.mem_append_right _ (List.mem_cons_of_mem _ hc))
    have hsplit : fdRun { owned := some d, closed := [] } (ops1 ++ FDOp.release :: ops2) =
        fdRun (fdStep (fdRun { owned := some d, closed := [] } ops1) FDOp.release) ops2 := by
      simp [fdRun, List.foldl_append]
    have hrun := fdRun_of_not_owned d ops2
      (fdStep (fdRun { owned := some d, closed := [] } ops1) FDOp.release)
      (by simp [fdStep]) hass2
    have hfin := fdClose_of_not_owned d _ hrun.2
    calc (fdLifecycle d (ops1 ++ FDOp.release :: ops2)).closed.count d
        = (fdRun (fdStep (fdRun { owned := some d, closed := [] } ops1) FDOp.release)
            ops2).closed.count d := by
          rw [fdLifecycle, hsplit]
          exact hfin.1
      _ = (fdStep (fdRun { owned := some d, closed := [] } ops1) FDOp.release).closed.count d :=
          hrun.1
      _ = (fdRun { owned := some d, closed := [] } ops1).closed.count d := rfl

/-- Witness for C4: a handle that owns descriptor 5, is closed and
destroyed, closes 5 exactly once. -/
theorem autoCloseFD_close_once_witness :
    ((5 : Int) ≠ -1) ∧ FDOp.assign 5 ∉ [FDOp.close] ∧ FDOp.release ∉ [FDOp.close] ∧
    (fdLifecycle 5 [FDOp.close]).closed.count 5 = 1 :=
  ⟨by decide, by decide, by decide,
    (autoCloseFD_close_once 5 [FDOp.close] (by decide) (by decide)).1 (by decide)⟩

/-- Claim C5: `AutoCloseFD` is move-only — its public interface (copy
construction and copy assignment are deleted) can never produce two live
handles owning the same valid descriptor, so no double-close can arise
from copying: every heap reachable by programs over the interface
satisfies `UniqueOwnership`. -/
theorem autoCloseFD_moveOnly (σ : HandleId → Option Int)
    (h : HandleReachable σ) : UniqueOwnership σ := by
  induction h with
  | init =>
    intro h1 h2 d hne e1 e2
    exact absurd e1 (by simp)
  | step _ hstep ih =>
    cases hstep with
    | construct hnone hfresh => exact uniqueOwnership_construct _ _ _ hfresh ih
    | moveConstruct hdst hsrc hds => exact uniqueOwnership_move _ _ _ _ hsrc ih
    | moveAssign hdst hsrc hds => exact uniqueOwnership_move _ _ _ _ hsrc ih
    | release hx => exact uniqueOwnership_sentinel _ _ ih
    | close hx => exact uniqueOwnership_sentinel _ _ ih
    | destroy hx => exact uniqueOwnership_erase _ _ ih

/-- Witness for C5: the heap after constructing one handle owning
descriptor 5 is reachable and has unique ownership. -/
theorem autoCloseFD_moveOnly_witness :
    UniqueOwnership (Function.update (fun _ => none) 0 (some 5)) :=
  autoCloseFD_moveOnly _ (HandleReachable.step HandleReachable.init
    (HandleStep.construct rfl (Or.inr (fun _ he => Option.noConfusion he))))

/-- Claim C6: `saveMountNamespace()` is idempotent; a save with an empty
snapshot slot followed by any number `N ≥ 0` of restores has the same
effect as the save followed by exactly one restore, and `N + 1` restores
always have the effect of exactly one; restoring with no prior snapshot is
a no-op (and, the operations being total functions, never fails). -/
theorem mountNamespace_spec :
    (∀ s, saveMountNamespace (saveMountNamespace s) = saveMountNamespace s) ∧
    (∀ (s : MountNsState) (N : Nat), s.savedNs = none →
      restoreMountNamespace^[N] (saveMountNamespace s) =
        restoreMountNamespace (saveMountNamespace s)) ∧
    (∀ (s : MountNsState) (N : Nat),
      restoreMountNamespace^[N + 1] s = restoreMountNamespace s) ∧
    (∀ s : MountNsState, s.savedNs = none → restoreMountNamespace s = s) := by
  refine ⟨?_, ?_, ?_, ?_⟩
  · intro s
    cases hs : s.savedNs with
    | none => simp [saveMountNamespace, hs]
    | some n => simp [saveMountNamespace, hs]
  · intro s N hs
    cases N with
    | zero => simp [saveMountNamespace, restoreMountNamespace, hs]
    | succ n => exact restore_iterate_succ _ n
  · exact fun s N => restore_iterate_succ s N
  · intro s hs
    simp [restoreMountNamespace, hs]

/-- Witness for C6 at a concrete snapshot-free state. -/
theorem mountNamespace_spec_witness :
    (({ current := 3, savedNs := none } : MountNsState).savedNs = none) ∧
    restoreMountNamespace^[2]
        (saveMountNamespace { current := 3, savedNs := none }) =
      restoreMountNamespace (saveMountNamespace { current := 3, savedNs := none }) ∧
    restoreMountNamespace { current := 3, savedNs := none } =
      { current := 3, savedNs := none } :=
  ⟨rfl, mountNamespace_spec.2.1 { current := 3, savedNs := none } 2 rfl,
    mountNamespace_spec.2.2.2 { current := 3, savedNs := none } rfl⟩

/-- Claim C7: a default-constructed `Pid` holds no live child (pid `-1`),
is not in a separate process group, and defaults its termination signal to
`SIGKILL`; `kill()` sends the configured signal (to the pid itself when
not in a separate process group). -/
theorem pid_default_spec (p : Pid) :
    Pid.defaultPid.pid = -1 ∧
    Pid.defaultPid.separatePG = false ∧
    Pid.defaultPid.killSignal = SIGKILL ∧
    (Pid.kill p).2 = p.killSignal ∧
    (p.separatePG = false → (Pid.kill p).1 = p.pid) := by
  refine ⟨rfl, rfl, rfl, rfl, ?_⟩
  intro h
  simp [Pid.kill, h]

/-- Witness for C7: killing through the default handle targets its own pid
field with its configured signal. -/
theorem pid_default_spec_witness :
    Pid.defaultPid.separatePG = false ∧
    (Pid.kill Pid.defaultPid).1 = Pid.defaultPid.pid :=
  ⟨rfl, (pid_default_spec Pid.defaultPid).2.2.2.2 rfl⟩

/-- Claim C9: constructing `ReceiveInterrupts` on thread `t` registers a
callback whose action is `pthread_kill(t, SIGUSR1)`; the listener's SIGINT
pass therefore delivers SIGUSR1 to `t`; and dropping the registration
handle (the destructor) unregisters the callback. -/
theorem receiveInterrupts_spec (t : ThreadId) (s : InterruptSubsystem) :
    ((receiveInterruptsConstruct t s).1, CallbackAction.signalThread t SIGUSR1) ∈
      (receiveInterruptsConstruct t s).2.callbacks ∧
    (t, SIGUSR1) ∈ (onSIGINT (receiveInterruptsConstruct t s).2).delivered ∧
    ∀ a, ((receiveInterruptsConstruct t s).1, a) ∉
      (receiveInterruptsDestroy (receiveInterruptsConstruct t s).1
        (receiveInterruptsConstruct t s).2).callbacks := by
  refine ⟨?_, ?_, ?_⟩
  · simp [receiveInterruptsConstruct, createInterruptCallback]
  · simp [onSIGINT, invokeFold_delivered, receiveInterruptsConstruct,
      createInterruptCallback, invokeCallback, CallbackAction.delivery]
  · intro a
    simp [receiveInterruptsDestroy, dropInterruptCallback, receiveInterruptsConstruct,
      createInterruptCallback, List.mem_filter]

/-- Witness for C9 on the empty registry and thread 7. -/
theorem receiveInterrupts_spec_witness :
    ((receiveInterruptsConstruct 7
        { nextId := 0, callbacks := [], flag := false, delivered := [] }).1,
      CallbackAction.signalThread 7 SIGUSR1) ∈
      (receiveInterruptsConstruct 7
        { nextId := 0, callbacks := [], flag := false, delivered := [] }).2.callbacks ∧
    (7, SIGUSR1) ∈ (onSIGINT (receiveInterruptsConstruct 7
      { nextId := 0, callbacks := [], flag := false, delivered := [] }).2).delivered :=
  ⟨(receiveInterrupts_spec 7
      { nextId := 0, callbacks := [], flag := false, delivered := [] }).1,
    (receiveInterrupts_spec 7
      { nextId := 0, callbacks := [], flag := false, delivered := [] }).2.1⟩

/-- Witness for C1 at concrete states: flag unset and no predicate gives a
normal return; flag set raises `Interrupted`. -/
theorem checkInterrupt_spec_witness :
    checkInterrupt { isInterrupted := false, interruptCheck := none } = Except.ok () ∧
    checkInterrupt { isInterrupted := true, interruptCheck := none } =
      Except.error InterruptError.interrupted :=
  ⟨(checkInterrupt_spec { isInterrupted := false, interruptCheck := none }).1.mpr
      ⟨rfl, Or.inl rfl⟩,
    (checkInterrupt_spec { isInterrupted := true, interruptCheck := none }).2.mpr
      (fun h => by simpa using h.1)⟩

/-- Witness for C2 on a concrete operation sequence. -/
theorem interruptFlag_monotone_witness :
    interruptRun true [InterruptOp.trigger, InterruptOp.check] = true :=
  interruptFlag_monotone.1 [InterruptOp.trigger, InterruptOp.check]

/-- Claim C8: `string2IntWithUnitPrefix<N>(s)` raises `UsageError` exactly
when `s` is malformed — its trailing character is alphabetic but not
(case-insensitively) one of `K`/`M`/`G`/`T`, or the string remaining after
stripping a valid suffix is not parseable by `string2Int<N>` — and
otherwise returns the parsed integer multiplied, in `N`'s (modular)
arithmetic, by `2^10`/`2^20`/`2^30`/`2^40` for suffix `K`/`M`/`G`/`T` and
by `1` when there is no suffix. -/
theorem string2IntWithUnitPrefix_spec (t : CIntTy) (s : List Char) :
    (isUsageError (string2IntWithUnitPrefix t s) = true ↔
      (badSuffix s = true ∨ string2Int t (stripUnit s) = none)) ∧
    (∀ n : Int, string2Int t (stripUnit s) = some n → badSuffix s = false →
      string2IntWithUnitPrefix t s = Except.ok (t.wrap (n * 2 ^ suffixExp s))) := by
  cases hlast : s.getLast? with
  | none =>
    cases hs : string2Int t s with
    | none =>
      simp [isUsageError, string2IntWithUnitPrefix, hlast, badSuffix, stripUnit, hs]
    | some n =>
      simp [isUsageError, string2IntWithUnitPrefix, hlast, badSuffix, stripUnit,
        suffixExp, hs]
  | some u0 =>
    cases halpha : isalphaC (toupperC u0) with
    | false =>
      have hne := unitExp_eq_none_of_not_alpha halpha
      cases hs : string2Int t s with
      | none =>
        simp [isUsageError, string2IntWithUnitPrefix, hlast, halpha, badSuffix,
          stripUnit, suffixExp, hs, hne]
      | some n =>
        simp [isUsageError, string2IntWithUnitPrefix, hlast, halpha, badSuffix,
          stripUnit, suffixExp, hs, hne]
    | true =>
      cases hmult : unitMultiplier (toupperC u0) with
      | none =>
        have hbs : badSuffix s = true := by simp [badSuffix, hlast, halpha, hmult]
        simp [isUsageError, string2IntWithUnitPrefix, hlast, halpha, hmult, hbs]
      | some m =>
        obtain ⟨k, hk, rfl⟩ : ∃ k, unitExp (toupperC u0) = some k ∧ m = 2 ^ k := by
          unfold unitMultiplier at hmult
          cases he : unitExp (toupperC u0) with
          | none => rw [he] at hmult; exact absurd hmult (by simp)
          | some k =>
            rw [he] at hmult
            simp only [Option.map_some'] at hmult
            exact ⟨k, rfl, (Option.some.inj hmult).symm⟩
        cases hs : string2Int t s.dropLast with
        | none =>
          simp [isUsageError, string2IntWithUnitPrefix, hlast, halpha, hmult,
            badSuffix, stripUnit, suffixExp, hs, hk]
        | some n =>
          have hval : t.wrap (n * t.wrap ((2 : Int) ^ k)) = t.wrap (n * 2 ^ k) :=
            CIntTy.wrap_mul_wrap t n (2 ^ k)
          simp [isUsageError, string2IntWithUnitPrefix, hlast, halpha, hmult,
            badSuffix, stripUnit, suffixExp, hs, hk, Nat.cast_pow, hval]

/-- Witness for C8: `"5K"` parsed at an unsigned 64-bit type. -/
theorem string2IntWithUnitPrefix_spec_witness :
    string2Int ⟨false, 64⟩ (stripUnit ['5', 'K']) = some 5 ∧
    badSuffix ['5', 'K'] = false ∧
    string2IntWithUnitPrefix ⟨false, 64⟩ ['5', 'K'] =
      Except.ok (CIntTy.wrap ⟨false, 64⟩ (5 * 2 ^ suffixExp ['5', 'K'])) :=
  ⟨by decide, by decide,
    (string2IntWithUnitPrefix_spec ⟨false, 64⟩ ['5', 'K']).2 5 (by decide) (by decide)⟩

/-- Claim C10: for every string starting with `'-'`, `string2Int<N>`
returns `nullopt` when `N` is unsigned — negative inputs are rejected up
front, not wrapped or parsed modulo the type's range. -/
theorem string2Int_negative_unsigned (t : CIntTy) (s : List Char)
    (h1 : s.head? = some '-') (h2 : t.signed = false) :
    string2Int t s = none := by
  unfold string2Int
  rw [if_pos ⟨h1, h2⟩]

/-- Witness for C10: `"-5"` at an unsigned 64-bit type. -/
theorem string2Int_negative_unsigned_witness :
    (['-', '5'].head? = some '-') ∧ ((⟨false, 64⟩ : CIntTy).signed = false) ∧
    string2Int ⟨false, 64⟩ ['-', '5'] = none :=
  ⟨rfl, rfl, string2Int_negative_unsigned ⟨false, 64⟩ ['-', '5'] rfl rfl⟩

end NixUtil
